import Mathlib

/-!
Verification of the PyMagento client core (`src/magento/client.py`):
the pagination generator `Magento.get_paginated`, the retry loop in
`Magento.request_api`, the error mapping `raise_for_response`, the
constructor `Magento.__init__`, and `Magento.get_product_by_query`.

The Python code is shallowly embedded: the generator becomes a fuel-driven
recursive function returning the list of yielded items together with the
number of page requests issued; HTTP responses are records; the remote
server is a function from (pageSize, currentPage) to a page response.
-/

namespace PyMagento

/-- A page response body, as read by `get_paginated`:
`items` is `none` when the `"items"` key is absent from the JSON body
(`res.get("items", [])`), `total_count` is `none` when the
`"total_count"` key is absent (`res["total_count"]` raises `KeyError`). -/
structure PageResponse (α : Type) where
  items : Option (List α)
  total_count : Option Nat
deriving Repr, DecidableEq

/-- A server: maps the requested `searchCriteria[pageSize]` and
`searchCriteria[currentPage]` to the page response it returns. -/
abbrev Server (α : Type) := Nat → Nat → PageResponse α

/-- Errors the embedded pagination loop can produce: `fuelExhausted` is the
artifact of embedding the unbounded `while True` with fuel;
`missingTotalCount` models the `KeyError` of `res["total_count"]`. -/
inductive PagError where
  | fuelExhausted
  | missingTotalCount
deriving Repr, DecidableEq

/-- The inner `for item in items` loop of `get_paginated`
(client.py lines 1059-1068): yields each item, increments `count`,
returns early when `count >= total_count`, or when
`is_limited and count >= limit`. Result: (items yielded from this page,
new count, whether the generator returned). -/
def yieldItems {α : Type} (is_limited : Bool) (limit : Int) (tc : Nat) :
    Nat → List α → List α × Nat × Bool
  | count, [] => ([], count, false)
  | count, item :: rest =>
    let count' := count + 1
    if tc ≤ count' then ([item], count', true)
    else if is_limited && decide (limit ≤ (count' : Int)) then ([item], count', true)
    else
      let r := yieldItems is_limited limit tc count' rest
      (item :: r.1, r.2)

/-- The `while True` page loop of `get_paginated` (client.py lines
1048-1070), driven by fuel. Returns the yielded items and the number of
page requests issued. Reading a page with an empty (or absent) `items`
breaks the loop; a non-empty page without `total_count` is a `KeyError`. -/
def pageLoop {α : Type} (srv : Server α) (page_size : Nat)
    (is_limited : Bool) (limit : Int) :
    Nat → Nat → Nat → Except PagError (List α × Nat)
  | 0, _, _ => .error .fuelExhausted
  | fuel + 1, current_page, count =>
    let res := srv page_size current_page
    let items := res.items.getD []
    if items.isEmpty then .ok ([], 1)
    else
      match res.total_count with
      | none => .error .missingTotalCount
      | some tc =>
        match yieldItems is_limited limit tc count items with
        | (ys, count', stopped) =>
          if stopped then .ok (ys, 1)
          else
            match pageLoop srv page_size is_limited limit fuel (current_page + 1) count' with
            | .ok (rest, reqs) => .ok (ys ++ rest, reqs + 1)
            | .error e => .error e

/-- Embedding of `Magento.get_paginated` (client.py lines 1019-1070). `PAGE_SIZE` is the
client's page size attribute (1000 by default, overridable at
construction). If `limit == 0` the generator yields nothing and issues no
request; otherwise `page_size = limit` when `0 < limit < PAGE_SIZE`, and
the page loop runs. Returns (yielded items, number of page requests). -/
def get_paginated {α : Type} (PAGE_SIZE : Nat) (srv : Server α)
    (limit : Int) (fuel : Nat) : Except PagError (List α × Nat) :=
  if limit = 0 then .ok ([], 0)
  else
    let is_limited : Bool := decide (0 < limit)
    let page_size : Nat := if 0 < limit ∧ limit < (PAGE_SIZE : Int) then limit.toNat else PAGE_SIZE
    pageLoop srv page_size is_limited limit fuel 1 0

/-- The canonical server honoring the pagination contract for the ordered
list `L` of all matching entities: page `p` (1-based) holds the `p`-th
chunk of `L` of size `page_size`, and `total_count` is `L.length`. -/
def honestServer {α : Type} (L : List α) : Server α :=
  fun page_size page =>
    { items := some ((L.drop ((page - 1) * page_size)).take page_size)
      total_count := some L.length }

/-- A server that reports a fixed `total_count = T` while its pages chunk
the item stream `M`, which may hold MORE than `T` items: the cumulative
items it returns can exceed the reported `total_count`. With
`T = M.length` this is exactly `honestServer M`. -/
def laxServer {α : Type} (M : List α) (T : Nat) : Server α :=
  fun page_size page =>
    { items := some ((M.drop ((page - 1) * page_size)).take page_size)
      total_count := some T }

/-- The number of entities `get_paginated` is expected to yield against a
contract-honoring server with `n` matching entities: `min limit n` for a
positive limit, all `n` otherwise. -/
def paginationTarget (limit : Int) (n : Nat) : Nat :=
  if 0 < limit then min limit.toNat n else n

/-- The effective page size computed at the top of `get_paginated`. -/
def pageSizeOf (PAGE_SIZE : Nat) (limit : Int) : Nat :=
  if 0 < limit ∧ limit < (PAGE_SIZE : Int) then limit.toNat else PAGE_SIZE

/-- JSON values, as produced by `response.json()`. Object fields are the
parsed dict's entries (keys unique, insertion order). -/
inductive Json where
  | null
  | bool (b : Bool)
  | num (n : Int)
  | str (s : String)
  | arr (elems : List Json)
  | obj (fields : List (String × Json))
deriving Repr

/-- An HTTP response as `raise_for_response` and the retry loop of
`request_api` observe it: the status code, the body text, and the result
of `response.json()` (`none` when parsing raises `ValueError` or
`JSONDecodeError`). -/
structure Response where
  status : Nat
  text : String := ""
  jsonBody : Option Json := none
deriving Repr

/-- Model of `requests.Response.ok`: true iff the status code is below 400. -/
def Response.ok (r : Response) : Bool := decide (r.status < 400)

/-- The `while not r.ok and retry > 0` loop of `Magento.request_api`
(client.py lines 1010-1013). `responses i` is the server's response to the
`i`-th HTTP attempt (0-based). State: remaining `retry` budget, current
response `r`, attempts performed so far, and the list of sleeps performed
(`time.sleep(10)` before each retry). -/
def request_api_go (responses : Nat → Response) :
    Nat → Response → Nat → List Nat → Response × Nat × List Nat
  | retry + 1, r, attempts, sleeps =>
    if r.ok then (r, attempts, sleeps)
    else request_api_go responses retry (responses attempts) (attempts + 1) (sleeps ++ [10])
  | 0, r, attempts, sleeps => (r, attempts, sleeps)

/-- The retry behavior of `Magento.request_api` (client.py lines
983-1017): one initial attempt, then the retry loop. Returns the final
response, the total number of attempts, and the sleeps performed. -/
def request_api (responses : Nat → Response) (retry : Nat) :
    Response × Nat × List Nat :=
  request_api_go responses retry (responses 0) 1 []

/-- A successful response in the strict sense of claim C5: a 2xx status. -/
def is2xx (r : Response) : Prop := 200 ≤ r.status ∧ r.status < 300

/-- The property claim C5 asserts: the request executor stops at the first
SUCCESSFUL (2xx) response — every attempt before the last is non-2xx, and
the run ends on a 2xx unless the retry budget is exhausted — performing at
most `r+1` attempts with a sleep of 10 before each retry. -/
def stopsAtFirst2xxClaim : Prop :=
  ∀ (responses : Nat → Response) (r : Nat),
    ∃ resp attempts sleeps,
      request_api responses r = (resp, attempts, sleeps) ∧
      attempts ≤ r + 1 ∧
      sleeps = List.replicate (attempts - 1) 10 ∧
      (∀ i, i + 1 < attempts → ¬ is2xx (responses i)) ∧
      (is2xx resp ∨ attempts = r + 1)

/-- What `raise_for_response` does, as a value: returned normally, raised
`MagentoException(message, parameters, trace, response)`, or raised the
generic `HTTPError` of `response.raise_for_status()`. The originating
response is represented by its status code. -/
inductive RaiseResult where
  | returned
  | magentoException (message : Json) (parameters trace : Option Json) (status : Nat)
  | httpError (status : Nat)
deriving Repr

/-- Embedding of `raise_for_response` (client.py lines 60-77): an ok response returns;
otherwise, when the body text is non-empty and its first character is a
brace, the body is parsed, and a dict containing "message" raises
`MagentoException` built from "message"/"parameters"/"trace"; every other
path falls through to `response.raise_for_status()`. -/
def raise_for_response (r : Response) : RaiseResult :=
  if r.ok then .returned
  else if r.text ≠ "" ∧ r.text.front = '\x7b' then
    match r.jsonBody with
    | some (Json.obj fields) =>
      match fields.lookup "message" with
      | some msg =>
        .magentoException msg (fields.lookup "parameters") (fields.lookup "trace") r.status
      | none => .httpError r.status
    | _ => .httpError r.status
  else .httpError r.status

/-- The property claim C6 asserts of the structured branch: EVERY non-2xx
response whose parsed JSON body is an object with a "message" key raises
the structured exception — with no condition on the raw body text. -/
def structuredClaim : Prop :=
  ∀ (r : Response) (fields : List (String × Json)) (msg : Json),
    r.ok = false →
    r.jsonBody = some (Json.obj fields) →
    fields.lookup "message" = some msg →
    raise_for_response r =
      .magentoException msg (fields.lookup "parameters") (fields.lookup "trace") r.status

/-- A response satisfying every condition the code requires for the
structured branch. -/
def structuredEnvelope (r : Response) : Prop :=
  r.text ≠ "" ∧ r.text.front = '\x7b' ∧
  ∃ fields, r.jsonBody = some (Json.obj fields) ∧ (fields.lookup "message").isSome

/-- Errors `get_product_by_query` can surface: a pagination failure from
the underlying fetch, or the client-side
`MagentoAssertionError("Got more than one product for query ...")`. -/
inductive ProductQueryError where
  | pag (e : PagError)
  | assertion
deriving Repr, DecidableEq

/-- Embedding of `Magento.get_product_by_query` (client.py lines 530-549), with the
products endpoint abstracted to a server: when `expect_one` is false,
return the first product of a limit-1 fetch (or `none`); otherwise fetch
with limit 2 and return `none` for no match, the product for exactly one,
and raise the assertion error for more than one. -/
def get_product_by_query {α : Type} (PAGE_SIZE : Nat) (srv : Server α)
    (expect_one : Bool) (fuel : Nat) : Except ProductQueryError (Option α) :=
  if expect_one = false then
    match get_paginated PAGE_SIZE srv 1 fuel with
    | .error e => .error (.pag e)
    | .ok (products, _) => .ok products.head?
  else
    match get_paginated PAGE_SIZE srv 2 fuel with
    | .error e => .error (.pag e)
    | .ok (products, _) =>
      if products.isEmpty then .ok none
      else if products.length = 1 then .ok products.head?
      else .error .assertion

/-- Python `a or b` on optional strings: `None` and `""` are falsy. -/
def pyOr : Option String → Option String → Option String
  | some s, b => if s = "" then b else some s
  | none, b => b

def DEFAULT_SCOPE : String := "all"

/-- The two `RuntimeError`s `Magento.__init__` can raise. -/
inductive InitError where
  | missingToken
  | missingBaseUrl
deriving Repr, DecidableEq

/-- The per-client configuration `Magento.__init__` resolves: the bearer
token (stored in the `Authorization` header), the base URL, the scope and
the page size. -/
structure MagentoConfig where
  token : String
  base_url : String
  scope : String
  page_size : Nat
deriving Repr, DecidableEq

/-- Embedding of `Magento.__init__` (client.py lines 96-136), restricted to the
configuration it resolves: each argument falls back on its
`PYMAGENTO_*` environment variable, `scope` falls back further on
`DEFAULT_SCOPE`; a missing token, then a missing base URL, raise
`RuntimeError` immediately; `batch_page_size`, when given, overrides the
default `PAGE_SIZE` of 1000. -/
def magento_init (token base_url scope : Option String)
    (env : String → Option String) (batch_page_size : Option Nat) :
    Except InitError MagentoConfig :=
  let tokenR := pyOr token (env "PYMAGENTO_TOKEN")
  let base_urlR := pyOr base_url (env "PYMAGENTO_BASE_URL")
  let scopeR := pyOr (pyOr scope (env "PYMAGENTO_SCOPE")) (some DEFAULT_SCOPE)
  match tokenR with
  | none => .error .missingToken
  | some tok =>
    match base_urlR with
    | none => .error .missingBaseUrl
    | some url =>
      .ok { token := tok, base_url := url, scope := scopeR.getD DEFAULT_SCOPE,
            page_size := batch_page_size.getD 1000 }

/-- The property claim C8 asserts: base URL, scope and token are EACH
mandatory — whenever any of the three resolves to nothing (argument
absent or empty, environment unset), construction fails. -/
def mandatoryScopeClaim : Prop :=
  ∀ (token base_url scope : Option String) (env : String → Option String)
    (bps : Option Nat),
    (pyOr token (env "PYMAGENTO_TOKEN") = none ∨
     pyOr base_url (env "PYMAGENTO_BASE_URL") = none ∨
     pyOr scope (env "PYMAGENTO_SCOPE") = none) →
    ∃ e, magento_init token base_url scope env bps = .error e

/-- Values stored in a query dict: the numbers injected by the paginator,
or opaque caller-supplied values. -/
inductive QVal where
  | num (v : Nat)
  | str (v : String)
deriving Repr, DecidableEq

/-- A Python dict, as an insertion-ordered association list. -/
abbrev QDict := List (String × QVal)

/-- A heap of mutable Python dicts, addressed by allocation index; this
makes mutation and aliasing of `Query` objects observable. -/
abbrev Heap := List QDict

/-- Assignment `d[k] = v` on a Python dict: replace the value in place if the key
exists, append the pair otherwise. -/
def dictSet (d : QDict) (k : String) (v : QVal) : QDict :=
  if (d.lookup k).isSome then d.map (fun kv => if kv.1 = k then (k, v) else kv)
  else d ++ [(k, v)]

/-- Allocate a fresh dict; returns the heap and the new dict's id. -/
def alloc (h : Heap) (d : QDict) : Heap × Nat := (h ++ [d], h.length)

/-- Read the dict at id `i`. -/
def getDict (h : Heap) (i : Nat) : QDict := h.getD i []

/-- Overwrite the dict at id `i` in place. -/
def setDict (h : Heap) (i : Nat) (d : QDict) : Heap := h.set i d

/-- Lines 1038-1043 of `get_paginated`: `query = query.copy()` (or `{}`),
then `query["searchCriteria[pageSize]"] = page_size` on the copy. Returns
the new heap and the id of the paginator's private query dict. -/
def paginationSetup (h : Heap) (qid : Option Nat) (page_size : Nat) : Heap × Nat :=
  let p := match qid with
    | some i => alloc h (getDict h i)
    | none => alloc h []
  (setDict p.1 p.2 (dictSet (getDict p.1 p.2) "searchCriteria[pageSize]" (QVal.num page_size)),
   p.2)

/-- Lines 1049-1050 of `get_paginated`, once per page:
`page_query = query.copy()`, then
`page_query["searchCriteria[currentPage]"] = current_page` on the fresh
copy. Returns the final heap and the page queries sent, in order. -/
def paginationPageQueries (q : Nat) : Heap → Nat → Nat → Heap × List QDict
  | h, _, 0 => (h, [])
  | h, current_page, n + 1 =>
    let p := alloc h (getDict h q)
    let h2 := setDict p.1 p.2
      (dictSet (getDict p.1 p.2) "searchCriteria[currentPage]" (QVal.num current_page))
    let r := paginationPageQueries q h2 (current_page + 1) n
    (r.1, getDict h2 p.2 :: r.2)

/-- The query handling of one `get_paginated` call that ends up issuing
`numPages` page requests. -/
def run_pagination (h : Heap) (qid : Option Nat) (page_size : Nat)
    (numPages : Nat) : Heap × List QDict :=
  let s := paginationSetup h qid page_size
  paginationPageQueries s.2 s.1 1 numPages

theorem paginationTarget_le (limit : Int) (n : Nat) : paginationTarget limit n ≤ n := by
  unfold paginationTarget
  split <;> omega

theorem paginationTarget_le_iff (limit : Int) (n count' : Nat) :
    paginationTarget limit n ≤ count' ↔
      (n ≤ count' ∨ (0 < limit ∧ limit ≤ (count' : Int))) := by
  unfold paginationTarget
  by_cases h : 0 < limit
  · rw [if_pos h]; omega
  · rw [if_neg h]; omega

/-- The generator's two early-return checks after a yield fire exactly when
the running count reaches `paginationTarget`. -/
theorem yieldItems_cons {α : Type} (limit : Int) (n count : Nat) (x : α) (rest : List α) :
    yieldItems (decide (0 < limit)) limit n count (x :: rest) =
      if paginationTarget limit n ≤ count + 1 then ([x], count + 1, true)
      else ((x :: (yieldItems (decide (0 < limit)) limit n (count + 1) rest).1),
            (yieldItems (decide (0 < limit)) limit n (count + 1) rest).2) := by
  simp only [yieldItems]
  by_cases hs : paginationTarget limit n ≤ count + 1
  · rw [if_pos hs]
    rcases (paginationTarget_le_iff limit n (count + 1)).mp hs with htc | ⟨hpos, hlim⟩
    · rw [if_pos htc]
    · by_cases htc : n ≤ count + 1
      · rw [if_pos htc]
      · rw [if_neg htc,
          if_pos (by simp only [Bool.and_eq_true, decide_eq_true_eq]; exact ⟨hpos, hlim⟩)]
  · rw [if_neg hs]
    have hiff := paginationTarget_le_iff limit n (count + 1)
    rw [if_neg (fun htc => hs (hiff.mpr (Or.inl htc)))]
    rw [if_neg ?hbool]
    case hbool =>
      intro hb
      simp only [Bool.and_eq_true, decide_eq_true_eq] at hb
      exact hs (hiff.mpr (Or.inr hb))

theorem yieldItems_no_stop {α : Type} (limit : Int) (n : Nat) (xs : List α) :
    ∀ count, count + xs.length < paginationTarget limit n →
    yieldItems (decide (0 < limit)) limit n count xs = (xs, count + xs.length, false) := by
  induction xs with
  | nil => intro count _; simp [yieldItems]
  | cons x rest ih =>
    intro count h
    simp only [List.length_cons] at h
    rw [yieldItems_cons, if_neg (by omega)]
    rw [ih (count + 1) (by omega)]
    have : count + 1 + rest.length = count + (rest.length + 1) := by omega
    simp [this]

theorem yieldItems_stop {α : Type} (limit : Int) (n : Nat) (xs : List α) :
    ∀ count, count < paginationTarget limit n →
    paginationTarget limit n ≤ count + xs.length →
    yieldItems (decide (0 < limit)) limit n count xs =
      (xs.take (paginationTarget limit n - count), paginationTarget limit n, true) := by
  induction xs with
  | nil => intro count h1 h2; simp at h2; omega
  | cons x rest ih =>
    intro count h1 h2
    simp only [List.length_cons] at h2
    rw [yieldItems_cons]
    by_cases hstop : paginationTarget limit n ≤ count + 1
    · rw [if_pos hstop]
      have h3 : paginationTarget limit n = count + 1 := by omega
      rw [h3]
      simp
    · rw [if_neg hstop]
      rw [ih (count + 1) (by omega) (by omega)]
      have htake : (x :: rest).take (paginationTarget limit n - count)
          = x :: rest.take (paginationTarget limit n - (count + 1)) := by
        have h4 : paginationTarget limit n - count
            = (paginationTarget limit n - (count + 1)) + 1 := by omega
        rw [h4, List.take_succ_cons]
      rw [htake]

/-- Running the page loop from page `p` with `count = (p-1)·ps` items
already yielded, against a server whose pages chunk the stream `M` while
reporting `total_count = T` with `T ≤ M.length` — so the server may
deliver cumulatively more items than the `total_count` it reports. The
loop yields the stream only up to `paginationTarget limit T` and issues
one request per chunk it needed: the `count >= total_count` guard stops it
at the reported total even when more items keep coming. -/
theorem pageLoop_lax {α : Type} (M : List α) (T : Nat) (limit : Int) (ps : Nat)
    (hps : 1 ≤ ps) (hT : T ≤ M.length) :
    ∀ fuel p count, 1 ≤ p →
      count = (p - 1) * ps →
      count < paginationTarget limit T →
      paginationTarget limit T ≤ count + fuel * ps →
      pageLoop (laxServer M T) ps (decide (0 < limit)) limit fuel p count =
        .ok ((M.drop count).take (paginationTarget limit T - count),
             (paginationTarget limit T - count + ps - 1) / ps) := by
  intro fuel
  induction fuel with
  | zero => intro p count _ _ h2 h3; simp at h3; omega
  | succ fuel ih =>
    intro p count hp hcount h2 h3
    have hTle : paginationTarget limit T ≤ T := paginationTarget_le limit T
    have hlen : ((M.drop count).take ps).length = min ps (M.length - count) := by
      rw [List.length_take, List.length_drop]
    have hne : ¬ ((M.drop count).take ps).isEmpty = true := by
      intro hnil
      have := congrArg List.length (List.isEmpty_iff.mp hnil)
      rw [hlen] at this
      simp at this
      omega
    simp only [pageLoop, laxServer, Option.getD]
    rw [← hcount]
    rw [if_neg hne]
    by_cases hstop :
        paginationTarget limit T ≤ count + min ps (M.length - count)
    · rw [yieldItems_stop limit T _ count h2 (by rw [hlen]; exact hstop)]
      have h5 : paginationTarget limit T - count ≤ ps := by omega
      have htk : ((M.drop count).take ps).take (paginationTarget limit T - count)
          = (M.drop count).take (paginationTarget limit T - count) := by
        rw [List.take_take, Nat.min_eq_left h5]
      have hreq : (paginationTarget limit T - count + ps - 1) / ps = 1 := by
        have h6 : paginationTarget limit T - count + ps - 1
            = (paginationTarget limit T - count - 1) + ps := by omega
        rw [h6, Nat.add_div_right _ (by omega), Nat.div_eq_of_lt (by omega)]
      simp only [htk, hreq]
      simp
    · push_neg at hstop
      have hmin : min ps (M.length - count) = ps := by omega
      rw [yieldItems_no_stop limit T _ count (by rw [hlen, hmin]; omega)]
      rw [hlen, hmin]
      have hpmul : p * ps = (p - 1) * ps + ps := by
        conv_lhs => rw [show p = (p - 1) + 1 from by omega]
        rw [Nat.succ_mul]
      rw [Nat.succ_mul] at h3
      rw [ih (p + 1) (count + ps) (by omega)
        (by simp only [Nat.add_sub_cancel]; omega)
        (by omega) (by omega)]
      have hitems : (M.drop count).take (paginationTarget limit T - count)
          = (M.drop count).take ps
            ++ (M.drop (count + ps)).take (paginationTarget limit T - (count + ps)) := by
        have h6 : paginationTarget limit T - count
            = ps + (paginationTarget limit T - (count + ps)) := by omega
        rw [h6, List.take_add, List.drop_drop]
      have hreq : (paginationTarget limit T - (count + ps) + ps - 1) / ps + 1
          = (paginationTarget limit T - count + ps - 1) / ps := by
        have h7 : paginationTarget limit T - (count + ps) + ps - 1
            = paginationTarget limit T - count - 1 := by omega
        have h8 : paginationTarget limit T - count + ps - 1
            = (paginationTarget limit T - count - 1) + ps := by omega
        rw [h7, h8, Nat.add_div_right _ (by omega)]
      simp only [hitems, hreq]
      simp

/-- Running the page loop against a contract-honoring server from page `p`
with `count = (p-1)·ps` items already yielded: the loop yields the rest of
`L` up to `paginationTarget` and issues one request per remaining chunk.
The honoring server is the `T = M.length` instance of `laxServer`. -/
theorem pageLoop_honest {α : Type} (L : List α) (limit : Int) (ps : Nat) (hps : 1 ≤ ps) :
    ∀ fuel p count, 1 ≤ p →
      count = (p - 1) * ps →
      count < paginationTarget limit L.length →
      paginationTarget limit L.length ≤ count + fuel * ps →
      pageLoop (honestServer L) ps (decide (0 < limit)) limit fuel p count =
        .ok ((L.drop count).take (paginationTarget limit L.length - count),
             (paginationTarget limit L.length - count + ps - 1) / ps) := by
  intro fuel p count hp hcount h2 h3
  exact pageLoop_lax L L.length limit ps hps (Nat.le_refl _) fuel p count hp hcount h2 h3

/-- Full behavior of `get_paginated` against a contract-honoring server:
it yields the first `paginationTarget limit total_count` matching entities
and issues one request per needed page (one single request when there are
no matching entities at all). -/
theorem get_paginated_honest {α : Type} (PAGE_SIZE : Nat) (L : List α) (limit : Int)
    (fuel : Nat) (hps : 1 ≤ PAGE_SIZE) (hlim : limit ≠ 0) (hfuel : L.length + 1 ≤ fuel) :
    get_paginated PAGE_SIZE (honestServer L) limit fuel =
      .ok (L.take (paginationTarget limit L.length),
           if L.length = 0 then 1
           else (paginationTarget limit L.length + pageSizeOf PAGE_SIZE limit - 1)
                / pageSizeOf PAGE_SIZE limit) := by
  have hps' : 1 ≤ pageSizeOf PAGE_SIZE limit := by
    unfold pageSizeOf
    split <;> omega
  unfold get_paginated
  rw [if_neg hlim]
  show pageLoop (honestServer L) (pageSizeOf PAGE_SIZE limit) (decide (0 < limit)) limit fuel 1 0
      = _
  by_cases hL : L.length = 0
  · rw [if_pos hL]
    obtain ⟨f, rfl⟩ : ∃ f, fuel = f + 1 := ⟨fuel - 1, by omega⟩
    have hLnil : L = [] := List.length_eq_zero.mp hL
    subst hLnil
    simp [pageLoop, honestServer]
  · rw [if_neg hL]
    have hT1 : 1 ≤ paginationTarget limit L.length := by
      unfold paginationTarget
      split <;> omega
    have := pageLoop_honest L limit (pageSizeOf PAGE_SIZE limit) hps' fuel 1 0
      (by omega) (by omega) (by omega)
      (by
        have hmul : fuel ≤ fuel * pageSizeOf PAGE_SIZE limit :=
          Nat.le_mul_of_pos_right fuel (by omega)
        have hTle := paginationTarget_le limit L.length
        omega)
    rw [this]
    simp

/-- C1: for every positive `limit = k`, against any contract-honoring
server with matching entities `L`, pagination yields exactly
`min k L.length` entities (namely the first ones, in order), and once the
running count reaches `k` (possible exactly when `k ≤ L.length`) it stops
requesting: the total number of page requests is exactly the `⌈k / ps⌉`
pages that were needed to yield those `k` items. -/
theorem C1_positive_limit_yields_min {α : Type} (PAGE_SIZE : Nat) (L : List α)
    (k : Int) (fuel : Nat) (hps : 1 ≤ PAGE_SIZE) (hk : 0 < k)
    (hfuel : L.length + 1 ≤ fuel) :
    ∃ ys reqs, get_paginated PAGE_SIZE (honestServer L) k fuel = .ok (ys, reqs) ∧
      ys = L.take (min k.toNat L.length) ∧
      ys.length = min k.toNat L.length ∧
      (k.toNat ≤ L.length →
        reqs = (k.toNat + pageSizeOf PAGE_SIZE k - 1) / pageSizeOf PAGE_SIZE k) := by
  have hT : paginationTarget k L.length = min k.toNat L.length := by
    unfold paginationTarget
    rw [if_pos hk]
  refine ⟨_, _, get_paginated_honest PAGE_SIZE L k fuel hps (by omega) hfuel, ?_, ?_, ?_⟩
  · rw [hT]
  · rw [hT, List.length_take]
    omega
  · intro hkL
    rw [if_neg (by omega), hT, Nat.min_eq_left hkL]

/-- Witness for C1 at `PAGE_SIZE = 2`, `L = [10, 20, 30]`, `k = 2`. -/
theorem C1_positive_limit_yields_min_witness :
    ∃ ys reqs, get_paginated 2 (honestServer [10, 20, 30]) 2 4 = .ok (ys, reqs) ∧
      ys = List.take (min (Int.toNat 2) 3) [10, 20, 30] ∧
      ys.length = min (Int.toNat 2) 3 ∧
      (Int.toNat 2 ≤ 3 → reqs = (Int.toNat 2 + pageSizeOf 2 2 - 1) / pageSizeOf 2 2) :=
  C1_positive_limit_yields_min 2 [10, 20, 30] 2 4 (by decide) (by decide) (by decide)

/-- C2: for a positive `limit = k` that the matching entities suffice to
meet, pagination issues exactly the minimum number of page requests whose
cumulative capacity reaches `k` yielded items: `k ≤ reqs · ps`, and any
request count `m` with `k ≤ m · ps` satisfies `reqs ≤ m` — in particular
no extra page is fetched when `k` falls exactly on a page boundary. -/
theorem C2_minimal_request_count {α : Type} (PAGE_SIZE : Nat) (L : List α)
    (k : Int) (fuel : Nat) (hps : 1 ≤ PAGE_SIZE) (hk : 0 < k)
    (hkL : k.toNat ≤ L.length) (hfuel : L.length + 1 ≤ fuel) :
    ∃ ys reqs, get_paginated PAGE_SIZE (honestServer L) k fuel = .ok (ys, reqs) ∧
      ys.length = k.toNat ∧
      k.toNat ≤ reqs * pageSizeOf PAGE_SIZE k ∧
      (∀ m, k.toNat ≤ m * pageSizeOf PAGE_SIZE k → reqs ≤ m) := by
  have hps' : 1 ≤ pageSizeOf PAGE_SIZE k := by
    unfold pageSizeOf
    split <;> omega
  have hT : paginationTarget k L.length = k.toNat := by
    unfold paginationTarget
    rw [if_pos hk, Nat.min_eq_left hkL]
  refine ⟨_, _, get_paginated_honest PAGE_SIZE L k fuel hps (by omega) hfuel, ?_, ?_, ?_⟩
  · rw [hT, List.length_take]
    omega
  · rw [if_neg (by omega), hT]
    set ps := pageSizeOf PAGE_SIZE k with hpsdef
    have h2 := Nat.div_add_mod (k.toNat + ps - 1) ps
    have h3 : (k.toNat + ps - 1) % ps < ps := Nat.mod_lt _ (by omega)
    have h4 : ps * ((k.toNat + ps - 1) / ps) = ((k.toNat + ps - 1) / ps) * ps :=
      Nat.mul_comm _ _
    omega
  · intro m hm
    rw [if_neg (by omega), hT]
    set ps := pageSizeOf PAGE_SIZE k with hpsdef
    have h1 : (k.toNat + ps - 1) / ps < m + 1 := by
      rw [Nat.div_lt_iff_lt_mul (by omega), Nat.succ_mul]
      omega
    omega

/-- Witness for C2 at `PAGE_SIZE = 2`, `L = [10, 20, 30, 40, 50]`, `k = 4`:
the limit boundary falls exactly on a page boundary and exactly 2 pages
are requested. -/
theorem C2_minimal_request_count_witness :
    ∃ ys reqs, get_paginated 2 (honestServer [10, 20, 30, 40, 50]) 4 6 = .ok (ys, reqs) ∧
      ys.length = Int.toNat 4 ∧
      Int.toNat 4 ≤ reqs * pageSizeOf 2 4 ∧
      (∀ m, Int.toNat 4 ≤ m * pageSizeOf 2 4 → reqs ≤ m) :=
  C2_minimal_request_count 2 [10, 20, 30, 40, 50] 4 6 (by decide) (by decide)
    (by decide) (by decide)

/-- C7: for `limit = 0`, `get_paginated` yields nothing and issues no page
request at all, whatever the server and the fuel. -/
theorem C7_limit_zero_no_request {α : Type} (PAGE_SIZE : Nat) (srv : Server α)
    (fuel : Nat) : get_paginated PAGE_SIZE srv 0 fuel = .ok ([], 0) := by
  unfold get_paginated
  simp

/-- C10 (implicit): a first-page response without an `"items"` key is
treated exactly like one with an empty `items` array — the fetch ends with
no items after that single request, whatever the `total_count` field holds
(it is never read) — while a first-page response with non-empty `items`
but no `"total_count"` key is a hard failure (`KeyError`). -/
theorem C10_missing_keys {α : Type} (PAGE_SIZE : Nat) (limit : Int) (fuel : Nat)
    (srv : Server α) (hlim : limit ≠ 0) :
    ((∀ ps, (srv ps 1).items = none) →
        get_paginated PAGE_SIZE srv limit (fuel + 1) = .ok ([], 1)) ∧
    ((∀ ps, (srv ps 1).items = some []) →
        get_paginated PAGE_SIZE srv limit (fuel + 1) = .ok ([], 1)) ∧
    (∀ x xs, (∀ ps, (srv ps 1).items = some (x :: xs)) →
        (∀ ps, (srv ps 1).total_count = none) →
        get_paginated PAGE_SIZE srv limit (fuel + 1) = .error .missingTotalCount) := by
  refine ⟨?_, ?_, ?_⟩
  · intro h
    unfold get_paginated
    rw [if_neg hlim]
    simp only [pageLoop, h]
    simp [Option.getD]
  · intro h
    unfold get_paginated
    rw [if_neg hlim]
    simp only [pageLoop, h]
    simp [Option.getD]
  · intro x xs h1 h2
    unfold get_paginated
    rw [if_neg hlim]
    simp only [pageLoop, h1, h2]
    simp [Option.getD]

/-- Witness for C10 on three concrete servers: items key absent (with a
stale `total_count = 5`), items present but empty (no `total_count`), and
two items but no `total_count`. -/
theorem C10_missing_keys_witness :
    (get_paginated 2 (fun _ _ => (⟨none, some 5⟩ : PageResponse Nat)) (-1) 3
        = .ok ([], 1)) ∧
    (get_paginated 2 (fun _ _ => (⟨some [], none⟩ : PageResponse Nat)) (-1) 3
        = .ok ([], 1)) ∧
    (get_paginated 2 (fun _ _ => (⟨some [7, 8], none⟩ : PageResponse Nat)) (-1) 3
        = .error .missingTotalCount) :=
  ⟨(C10_missing_keys 2 (-1) 2 _ (by decide)).1 (fun _ => rfl),
   (C10_missing_keys 2 (-1) 2 _ (by decide)).2.1 (fun _ => rfl),
   (C10_missing_keys 2 (-1) 2 _ (by decide)).2.2 7 [8] (fun _ => rfl) (fun _ => rfl)⟩

theorem request_api_go_ok (responses : Nat → Response) (retry : Nat)
    (r : Response) (attempts : Nat) (sleeps : List Nat) (h : r.ok = true) :
    request_api_go responses retry r attempts sleeps = (r, attempts, sleeps) := by
  cases retry with
  | zero => rfl
  | succ n => simp [request_api_go, h]

/-- Invariant characterization of the retry loop: starting after `attempts`
attempts whose last response is `r` and whose earlier responses all
failed, it performs at most `retry` further attempts, sleeps 10 before
each, stops at the first success, and exhausts the budget otherwise. -/
theorem request_api_go_spec (responses : Nat → Response) :
    ∀ (retry attempts : Nat) (r : Response),
      r = responses (attempts - 1) → 1 ≤ attempts →
      (∀ i, i + 1 < attempts → (responses i).ok = false) →
      ∃ resp attempts',
        request_api_go responses retry r attempts (List.replicate (attempts - 1) 10)
          = (resp, attempts', List.replicate (attempts' - 1) 10) ∧
        attempts ≤ attempts' ∧ attempts' ≤ attempts + retry ∧
        resp = responses (attempts' - 1) ∧
        (∀ i, i + 1 < attempts' → (responses i).ok = false) ∧
        (resp.ok = true ∨ attempts' = attempts + retry) := by
  intro retry
  induction retry with
  | zero =>
    intro attempts r hr h1 hprev
    exact ⟨r, attempts, rfl, Nat.le_refl _, by omega, hr, hprev, Or.inr (by omega)⟩
  | succ n ih =>
    intro attempts r hr h1 hprev
    by_cases hok : r.ok = true
    · refine ⟨r, attempts, ?_, Nat.le_refl _, by omega, hr, hprev, Or.inl hok⟩
      simp [request_api_go, hok]
    · have hok' : r.ok = false := by
        cases hrok : r.ok
        · rfl
        · exact absurd hrok hok
      have hstep : request_api_go responses (n + 1) r attempts
            (List.replicate (attempts - 1) 10)
          = request_api_go responses n (responses attempts) (attempts + 1)
              (List.replicate (attempts - 1) 10 ++ [10]) := by
        simp [request_api_go, hok']
      have hrep : List.replicate (attempts - 1) 10 ++ [10]
          = List.replicate ((attempts + 1) - 1) 10 := by
        have h2 : (attempts + 1) - 1 = (attempts - 1) + 1 := by omega
        rw [h2, List.replicate_succ']
      rw [hstep, hrep]
      have hprev' : ∀ i, i + 1 < attempts + 1 → (responses i).ok = false := by
        intro i hi
        by_cases hlt : i + 1 < attempts
        · exact hprev i hlt
        · have h3 : i = attempts - 1 := by omega
          rw [h3, ← hr]
          exact hok'
      obtain ⟨resp, attempts', heq, hge, hle, hresp, hprev2, hlast⟩ :=
        ih (attempts + 1) (responses attempts) (by simp) (by omega) hprev'
      refine ⟨resp, attempts', heq, by omega, by omega, hresp, hprev2, ?_⟩
      rcases hlast with h | h
      · exact Or.inl h
      · exact Or.inr (by omega)

/-- C5 as stated is false: the claim says the executor stops at the first
SUCCESSFUL (2xx) response, but the code's loop condition is
`while not r.ok and retry > 0` with `ok` meaning status < 400. Against a
server answering 302 then 200 with retry budget 1, the code performs a
single attempt and returns the 302 — a non-2xx response — with budget left
over, so neither does it end on a 2xx nor did it exhaust the budget. -/
theorem C5_counterexample : ¬ stopsAtFirst2xxClaim := by
  intro h
  obtain ⟨resp, attempts, sleeps, heq, hle, hsl, hprev, hlast⟩ :=
    h (fun i => if i = 0 then ⟨302, "", none⟩ else ⟨200, "", none⟩) 1
  have hcomp : request_api
      (fun i => if i = 0 then (⟨302, "", none⟩ : Response) else ⟨200, "", none⟩) 1
      = (⟨302, "", none⟩, 1, []) := rfl
  rw [hcomp] at heq
  have hresp : resp = ⟨302, "", none⟩ := by
    have := congrArg Prod.fst heq
    simpa using this.symm
  have hatt : attempts = 1 := by
    have := congrArg (fun t => t.2.1) heq
    simpa using this.symm
  rcases hlast with h2 | h2
  · rw [hresp] at h2
    exact absurd h2.2 (by decide)
  · omega

/-- C5 amended: `request_api` with retry budget `r` performs between 1 and
`r+1` attempts, sleeps exactly 10 time units before each retry (so
`attempts - 1` sleeps), returns the last response attempted, and stops at
the first NON-ERROR response in the sense of `requests`' `ok` — status
< 400, which includes 3xx: all attempts before the last have `ok = false`,
and the last either is ok or exhausted the budget. It returns immediately
on an initially-ok response (hence never retries when `r = 0`), and in
particular with `r = 2` against a server answering two errors (status
≥ 400) then an ok response it performs exactly 3 attempts, sleeps twice,
and returns that ok response. -/
theorem C5_retry_policy (responses : Nat → Response) (r : Nat) :
    ∃ resp attempts sleeps,
      request_api responses r = (resp, attempts, sleeps) ∧
      1 ≤ attempts ∧ attempts ≤ r + 1 ∧
      sleeps = List.replicate (attempts - 1) 10 ∧
      resp = responses (attempts - 1) ∧
      (∀ i, i + 1 < attempts → (responses i).ok = false) ∧
      (resp.ok = true ∨ attempts = r + 1) ∧
      ((responses 0).ok = true → request_api responses r = (responses 0, 1, [])) ∧
      (r = 2 → (responses 0).ok = false → (responses 1).ok = false →
        (responses 2).ok = true →
        request_api responses r = (responses 2, 3, [10, 10])) := by
  have hstart : request_api responses r
      = request_api_go responses r (responses 0) 1 (List.replicate (1 - 1) 10) := rfl
  obtain ⟨resp, attempts, heq, hge, hle, hresp, hprev, hlast⟩ :=
    request_api_go_spec responses r 1 (responses 0) rfl (Nat.le_refl 1)
      (fun i hi => absurd hi (by omega))
  refine ⟨resp, attempts, List.replicate (attempts - 1) 10,
    by rw [hstart]; exact heq, hge, by omega, rfl, hresp, hprev,
    by rcases hlast with h | h; exact Or.inl h; exact Or.inr (by omega), ?_, ?_⟩
  · intro hok0
    rw [hstart]
    exact request_api_go_ok responses r (responses 0) 1 _ hok0
  · intro hr2 h0 h1 h2
    subst hr2
    have ha : attempts = 3 := by
      rcases hlast with hok | h3
      · by_contra hne
        have h4 : attempts = 1 ∨ attempts = 2 := by omega
        rcases h4 with h | h
        · rw [h] at hresp
          rw [hresp] at hok
          rw [h0] at hok
          exact Bool.noConfusion hok
        · rw [h] at hresp
          rw [hresp] at hok
          rw [h1] at hok
          exact Bool.noConfusion hok
      · omega
    rw [hstart, heq, ha]
    rw [ha] at hresp
    rw [hresp]
    rfl

/-- Witness for C5: a server failing twice then succeeding, with retry
budget 2: three attempts, two sleeps of 10, the 200 response returned. -/
theorem C5_retry_policy_witness :
    ∃ resp attempts sleeps,
      request_api (fun i => if i < 2 then ⟨500, "", none⟩ else ⟨200, "", none⟩) 2
        = (resp, attempts, sleeps) ∧
      1 ≤ attempts ∧ attempts ≤ 2 + 1 ∧
      sleeps = List.replicate (attempts - 1) 10 ∧
      resp = (fun i => if i < 2 then (⟨500, "", none⟩ : Response) else ⟨200, "", none⟩)
        (attempts - 1) ∧
      (∀ i, i + 1 < attempts →
        ((fun i => if i < 2 then (⟨500, "", none⟩ : Response) else ⟨200, "", none⟩) i).ok
          = false) ∧
      (resp.ok = true ∨ attempts = 2 + 1) ∧
      (((fun i => if i < 2 then (⟨500, "", none⟩ : Response) else ⟨200, "", none⟩) 0).ok
          = true →
        request_api (fun i => if i < 2 then ⟨500, "", none⟩ else ⟨200, "", none⟩) 2
          = ((fun i => if i < 2 then (⟨500, "", none⟩ : Response) else ⟨200, "", none⟩) 0,
             1, [])) ∧
      (2 = 2 →
        ((fun i => if i < 2 then (⟨500, "", none⟩ : Response) else ⟨200, "", none⟩) 0).ok
          = false →
        ((fun i => if i < 2 then (⟨500, "", none⟩ : Response) else ⟨200, "", none⟩) 1).ok
          = false →
        ((fun i => if i < 2 then (⟨500, "", none⟩ : Response) else ⟨200, "", none⟩) 2).ok
          = true →
        request_api (fun i => if i < 2 then ⟨500, "", none⟩ else ⟨200, "", none⟩) 2
          = ((fun i => if i < 2 then (⟨500, "", none⟩ : Response) else ⟨200, "", none⟩) 2,
             3, [10, 10])) :=
  C5_retry_policy (fun i => if i < 2 then ⟨500, "", none⟩ else ⟨200, "", none⟩) 2

/-- C6 as stated is false on two fronts. First, a 500 response whose body
is the JSON object `{"message": "oops"}` preceded by a space — a valid
JSON object body, which `response.json()` parses — is NOT translated to a
structured error, because the code only parses bodies whose first raw
character is a brace; the generic status error is raised instead. Second,
a 302 response — non-2xx, with a non-JSON body — raises nothing at all
rather than the generic HTTP-status error the claim demands, because the
code only raises for statuses ≥ 400 (`response.ok` is status < 400). -/
theorem C6_counterexample :
    ¬ structuredClaim ∧
    raise_for_response ⟨302, "Found", none⟩ = .returned := by
  constructor
  · intro h
    have h2 := h ⟨500, " \x7b\"message\": \"oops\"\x7d",
        some (Json.obj [("message", Json.str "oops")])⟩
      [("message", Json.str "oops")] (Json.str "oops") rfl rfl rfl
    have h3 : raise_for_response ⟨500, " \x7b\"message\": \"oops\"\x7d",
        some (Json.obj [("message", Json.str "oops")])⟩ = .httpError 500 := rfl
    rw [h3] at h2
    exact RaiseResult.noConfusion h2
  · rfl

/-- C6 amended: a response with status < 400 (every 2xx and 3xx) raises
nothing; for every response with status ≥ 400: when its body TEXT is
non-empty and starts with a brace, and parses to a JSON object with a
"message" key, the structured error is raised carrying that message plus
the optional "parameters" and "trace" fields and the response's status;
every other status ≥ 400 response raises the generic HTTP-status error. -/
theorem C6_error_mapping_amended (r : Response) :
    (r.status < 400 → raise_for_response r = .returned) ∧
    (400 ≤ r.status →
      ∀ fields msg, r.text ≠ "" → r.text.front = '\x7b' →
        r.jsonBody = some (Json.obj fields) →
        fields.lookup "message" = some msg →
        raise_for_response r =
          .magentoException msg (fields.lookup "parameters") (fields.lookup "trace")
            r.status) ∧
    (400 ≤ r.status → ¬ structuredEnvelope r →
      raise_for_response r = .httpError r.status) := by
  refine ⟨?_, ?_, ?_⟩
  · intro h
    unfold raise_for_response
    rw [if_pos (by simp [Response.ok]; omega)]
  · intro hok fields msg ht hf hb hm
    unfold raise_for_response
    rw [if_neg (by simp [Response.ok]; omega), if_pos ⟨ht, hf⟩, hb]
    simp only [hm]
  · intro hok hne
    unfold raise_for_response
    rw [if_neg (by simp [Response.ok]; omega)]
    by_cases hc : r.text ≠ "" ∧ r.text.front = '\x7b'
    · rw [if_pos hc]
      cases hb : r.jsonBody with
      | none => rfl
      | some j =>
        cases j with
        | obj fields =>
          cases hm : fields.lookup "message" with
          | none => simp only [hm]
          | some msg =>
            exact absurd ⟨hc.1, hc.2, fields, hb, by rw [hm]; rfl⟩ hne
        | null => rfl
        | bool b => rfl
        | num n => rfl
        | str s => rfl
        | arr elems => rfl
    · rw [if_neg hc]

/-- Witness for the amended C6: the spec's example, a 422 response with
body `{"message": "SKU not found", "parameters": ["X1"]}`, raises the
structured error carrying that message and parameters; and a 500 response
with a non-JSON body raises the generic error with status 500. -/
theorem C6_error_mapping_amended_witness :
    raise_for_response
        ⟨422, "\x7b\"message\": \"SKU not found\", \"parameters\": [\"X1\"]\x7d",
         some (Json.obj [("message", Json.str "SKU not found"),
                         ("parameters", Json.arr [Json.str "X1"])])⟩
      = .magentoException (Json.str "SKU not found")
          (some (Json.arr [Json.str "X1"])) none 422 ∧
    raise_for_response ⟨500, "Internal Server Error", none⟩ = .httpError 500 :=
  ⟨(C6_error_mapping_amended
      ⟨422, "\x7b\"message\": \"SKU not found\", \"parameters\": [\"X1\"]\x7d",
       some (Json.obj [("message", Json.str "SKU not found"),
                       ("parameters", Json.arr [Json.str "X1"])])⟩).2.1 (by decide)
      [("message", Json.str "SKU not found"), ("parameters", Json.arr [Json.str "X1"])]
      (Json.str "SKU not found") (by simp) rfl rfl rfl,
   (C6_error_mapping_amended ⟨500, "Internal Server Error", none⟩).2.2 (by decide)
      (by
        intro henv
        obtain ⟨_, hfront, _⟩ := henv
        exact absurd hfront (by decide))⟩

/-- C8 as stated is false: with token and base URL supplied but scope
absent (no argument, empty environment), construction succeeds — the
scope silently falls back to the default `"all"` instead of raising. -/
theorem C8_counterexample : ¬ mandatoryScopeClaim := by
  intro h
  obtain ⟨e, he⟩ := h (some "t") (some "u") none (fun _ => none) none
    (Or.inr (Or.inr rfl))
  have h2 : magento_init (some "t") (some "u") none (fun _ => none) none
      = .ok ⟨"t", "u", "all", 1000⟩ := rfl
  rw [h2] at he
  exact Except.noConfusion he

/-- C8 amended: the token and the base URL are each mandatory (argument or
environment): a missing token raises immediately, then a missing base URL;
when both are present construction succeeds — before any HTTP call — with
the scope falling back to the environment and then to the default
`"all"`. -/
theorem C8_init_amended (token base_url scope : Option String)
    (env : String → Option String) (bps : Option Nat) :
    (pyOr token (env "PYMAGENTO_TOKEN") = none →
      magento_init token base_url scope env bps = .error .missingToken) ∧
    (∀ tok, pyOr token (env "PYMAGENTO_TOKEN") = some tok →
      pyOr base_url (env "PYMAGENTO_BASE_URL") = none →
      magento_init token base_url scope env bps = .error .missingBaseUrl) ∧
    (∀ tok url, pyOr token (env "PYMAGENTO_TOKEN") = some tok →
      pyOr base_url (env "PYMAGENTO_BASE_URL") = some url →
      magento_init token base_url scope env bps =
        .ok ⟨tok, url,
          (pyOr (pyOr scope (env "PYMAGENTO_SCOPE")) (some DEFAULT_SCOPE)).getD
            DEFAULT_SCOPE,
          bps.getD 1000⟩) := by
  refine ⟨?_, ?_, ?_⟩
  · intro h
    unfold magento_init
    rw [h]
  · intro tok h1 h2
    unfold magento_init
    rw [h1, h2]
  · intro tok url h1 h2
    unfold magento_init
    rw [h1, h2]

/-- Witness for the amended C8: token and base URL given, scope absent,
empty environment — construction succeeds with scope `"all"` and the
default page size; and with no token at all construction fails
immediately. -/
theorem C8_init_amended_witness :
    magento_init (some "t") (some "u") none (fun _ => none) none =
      .ok ⟨"t", "u",
        (pyOr (pyOr none ((fun _ => none) "PYMAGENTO_SCOPE")) (some DEFAULT_SCOPE)).getD
          DEFAULT_SCOPE,
        (none : Option Nat).getD 1000⟩ ∧
    magento_init none (some "u") (some "s") (fun _ => none) none =
      .error .missingToken :=
  ⟨(C8_init_amended (some "t") (some "u") none (fun _ => none) none).2.2 "t" "u" rfl rfl,
   (C8_init_amended none (some "u") (some "s") (fun _ => none) none).1 rfl⟩

/-- C9: `get_product_by_query` with `expect_one` against a
contract-honoring server: no matching product returns `None`, exactly one
returns it, and more than one raises the client-side
`MagentoAssertionError`. -/
theorem C9_expect_one {α : Type} (PAGE_SIZE : Nat) (L : List α) (fuel : Nat)
    (hps : 1 ≤ PAGE_SIZE) (hfuel : L.length + 1 ≤ fuel) :
    (L = [] → get_product_by_query PAGE_SIZE (honestServer L) true fuel = .ok none) ∧
    (∀ p, L = [p] →
      get_product_by_query PAGE_SIZE (honestServer L) true fuel = .ok (some p)) ∧
    (2 ≤ L.length →
      get_product_by_query PAGE_SIZE (honestServer L) true fuel = .error .assertion) := by
  have hpag := get_paginated_honest PAGE_SIZE L 2 fuel hps (by omega) hfuel
  refine ⟨?_, ?_, ?_⟩
  · intro hL
    subst hL
    unfold get_product_by_query
    rw [hpag]
    simp
  · intro p hL
    subst hL
    unfold get_product_by_query
    rw [hpag]
    simp [paginationTarget]
  · intro hlen
    unfold get_product_by_query
    rw [hpag]
    have hT : paginationTarget 2 L.length = 2 := by
      unfold paginationTarget
      rw [if_pos (by omega)]
      omega
    rw [hT]
    have hlen2 : (L.take 2).length = 2 := by
      rw [List.length_take]
      omega
    have hnonempty : (L.take 2).isEmpty = false := by
      cases he : (L.take 2).isEmpty
      · rfl
      · have := congrArg List.length (List.isEmpty_iff.mp he)
        rw [hlen2] at this
        exact absurd this (by simp)
    simp only [hnonempty]
    simp [hlen2]

/-- Witness for C9 with honoring servers holding zero, one, and two
matching products. -/
theorem C9_expect_one_witness :
    get_product_by_query 2 (honestServer ([] : List Nat)) true 1 = .ok none ∧
    get_product_by_query 2 (honestServer [7]) true 2 = .ok (some 7) ∧
    get_product_by_query 2 (honestServer [7, 8]) true 3 = .error .assertion :=
  ⟨(C9_expect_one 2 [] 1 (by decide) (by decide)).1 rfl,
   (C9_expect_one 2 [7] 2 (by decide) (by decide)).2.1 7 rfl,
   (C9_expect_one 2 [7, 8] 3 (by decide) (by decide)).2.2 (by decide)⟩

theorem getDict_append_lt (h : Heap) (d : QDict) (i : Nat) (hi : i < h.length) :
    getDict (h ++ [d]) i = getDict h i := by
  unfold getDict
  rw [List.getD_eq_getElem?_getD, List.getD_eq_getElem?_getD,
    List.getElem?_append_left hi]

theorem getDict_append_self (h : Heap) (d : QDict) :
    getDict (h ++ [d]) h.length = d := by
  unfold getDict
  rw [List.getD_eq_getElem?_getD, List.getElem?_concat_length]
  rfl

theorem getDict_set_ne (h : Heap) (i j : Nat) (d : QDict) (hne : i ≠ j) :
    getDict (setDict h i d) j = getDict h j := by
  unfold getDict setDict
  rw [List.getD_eq_getElem?_getD, List.getD_eq_getElem?_getD,
    List.getElem?_set_ne hne]

theorem getDict_set_self (h : Heap) (i : Nat) (d : QDict) (hi : i < h.length) :
    getDict (setDict h i d) i = d := by
  unfold getDict setDict
  rw [List.getD_eq_getElem?_getD, List.getElem?_set_self hi]
  rfl

theorem length_setDict (h : Heap) (i : Nat) (d : QDict) :
    (setDict h i d).length = h.length := List.length_set h i d

/-- The page-query loop never touches any dict allocated before it ran:
it only allocates fresh copies and mutates those, and each page query sent
is the private query's content plus the `currentPage` key. -/
theorem paginationPageQueries_spec (q : Nat) :
    ∀ (n : Nat) (h : Heap) (cp : Nat), q < h.length →
      (paginationPageQueries q h cp n).1.length = h.length + n ∧
      (∀ i, i < h.length →
        getDict (paginationPageQueries q h cp n).1 i = getDict h i) ∧
      (paginationPageQueries q h cp n).2 =
        (List.range' cp n).map
          (fun p => dictSet (getDict h q) "searchCriteria[currentPage]" (QVal.num p)) := by
  intro n
  induction n with
  | zero =>
    intro h cp hq
    exact ⟨rfl, fun i _ => rfl, by simp [paginationPageQueries]⟩
  | succ m ih =>
    intro h cp hq
    simp only [paginationPageQueries, alloc]
    rw [getDict_append_self]
    have hq2 : q < (setDict (h ++ [getDict h q]) h.length
        (dictSet (getDict h q) "searchCriteria[currentPage]" (QVal.num cp))).length := by
      rw [length_setDict, List.length_append]
      simp
      omega
    obtain ⟨ihlen, ihframe, ihout⟩ := ih
      (setDict (h ++ [getDict h q]) h.length
        (dictSet (getDict h q) "searchCriteria[currentPage]" (QVal.num cp)))
      (cp + 1) hq2
    have e2 : getDict (setDict (h ++ [getDict h q]) h.length
        (dictSet (getDict h q) "searchCriteria[currentPage]" (QVal.num cp))) q
        = getDict h q := by
      rw [getDict_set_ne _ _ _ _ (by omega), getDict_append_lt _ _ _ hq]
    have ehead : getDict (setDict (h ++ [getDict h q]) h.length
        (dictSet (getDict h q) "searchCriteria[currentPage]" (QVal.num cp))) h.length
        = dictSet (getDict h q) "searchCriteria[currentPage]" (QVal.num cp) := by
      rw [getDict_set_self]
      rw [List.length_append]
      simp
    refine ⟨?_, ?_, ?_⟩
    · rw [ihlen, length_setDict, List.length_append]
      simp
      omega
    · intro i hi
      rw [ihframe i (by rw [length_setDict, List.length_append]; simp; omega)]
      rw [getDict_set_ne _ _ _ _ (by omega), getDict_append_lt _ _ _ hi]
    · rw [ehead, ihout, e2, List.range'_succ, List.map_cons]

/-- One `get_paginated` call's query handling: the caller's dict at `i` is
never mutated, the heap only grows, and the page queries sent are the
caller's dict plus the `pageSize` and `currentPage` keys, added on
copies. -/
theorem run_pagination_spec (h : Heap) (i : Nat) (ps n : Nat) (_hi : i < h.length) :
    (∀ j, j < h.length → getDict (run_pagination h (some i) ps n).1 j = getDict h j) ∧
    h.length + 1 ≤ (run_pagination h (some i) ps n).1.length ∧
    (run_pagination h (some i) ps n).2 =
      (List.range' 1 n).map
        (fun p => dictSet (dictSet (getDict h i) "searchCriteria[pageSize]" (QVal.num ps))
          "searchCriteria[currentPage]" (QVal.num p)) := by
  unfold run_pagination paginationSetup
  simp only [alloc]
  rw [getDict_append_self]
  have hq : h.length < (setDict (h ++ [getDict h i]) h.length
      (dictSet (getDict h i) "searchCriteria[pageSize]" (QVal.num ps))).length := by
    rw [length_setDict, List.length_append]
    simp
  obtain ⟨hlen, hframe, hout⟩ := paginationPageQueries_spec h.length n
    (setDict (h ++ [getDict h i]) h.length
      (dictSet (getDict h i) "searchCriteria[pageSize]" (QVal.num ps))) 1 hq
  have eq1 : getDict (setDict (h ++ [getDict h i]) h.length
      (dictSet (getDict h i) "searchCriteria[pageSize]" (QVal.num ps))) h.length
      = dictSet (getDict h i) "searchCriteria[pageSize]" (QVal.num ps) := by
    rw [getDict_set_self]
    rw [List.length_append]
    simp
  refine ⟨?_, ?_, ?_⟩
  · intro j hj
    rw [hframe j (by rw [length_setDict, List.length_append]; simp; omega)]
    rw [getDict_set_ne _ _ _ _ (by omega), getDict_append_lt _ _ _ hj]
  · rw [hlen, length_setDict, List.length_append]
    simp
  · rw [hout, eq1]

/-- C4: the paginator never mutates the caller's `Query` dict: after one
pagination call, and after a second call reusing the same dict with a
different page size, the caller's dict is unchanged, and each call's page
queries are built from the caller's original content plus that call's own
`pageSize` and `currentPage` keys — neither call's injected keys are
visible to the other. -/
theorem C4_query_not_mutated (h : Heap) (i : Nat) (ps1 ps2 n1 n2 : Nat)
    (hi : i < h.length) :
    getDict (run_pagination h (some i) ps1 n1).1 i = getDict h i ∧
    getDict (run_pagination (run_pagination h (some i) ps1 n1).1 (some i) ps2 n2).1 i
      = getDict h i ∧
    (run_pagination h (some i) ps1 n1).2 =
      (List.range' 1 n1).map
        (fun p => dictSet (dictSet (getDict h i) "searchCriteria[pageSize]" (QVal.num ps1))
          "searchCriteria[currentPage]" (QVal.num p)) ∧
    (run_pagination (run_pagination h (some i) ps1 n1).1 (some i) ps2 n2).2 =
      (List.range' 1 n2).map
        (fun p => dictSet (dictSet (getDict h i) "searchCriteria[pageSize]" (QVal.num ps2))
          "searchCriteria[currentPage]" (QVal.num p)) := by
  obtain ⟨hframe1, hlen1, hout1⟩ := run_pagination_spec h i ps1 n1 hi
  have hi2 : i < (run_pagination h (some i) ps1 n1).1.length := by omega
  obtain ⟨hframe2, hlen2, hout2⟩ :=
    run_pagination_spec (run_pagination h (some i) ps1 n1).1 i ps2 n2 hi2
  refine ⟨hframe1 i hi, ?_, hout1, ?_⟩
  · rw [hframe2 i hi2, hframe1 i hi]
  · rw [hout2, hframe1 i hi]

/-- Witness for C4: a one-dict heap holding `{"color": "red"}`, paginated
first with page size 2 for two pages, then again with page size 5 for one
page. -/
theorem C4_query_not_mutated_witness :
    getDict (run_pagination [[("color", QVal.str "red")]] (some 0) 2 2).1 0
      = getDict [[("color", QVal.str "red")]] 0 ∧
    getDict (run_pagination
        (run_pagination [[("color", QVal.str "red")]] (some 0) 2 2).1 (some 0) 5 1).1 0
      = getDict [[("color", QVal.str "red")]] 0 ∧
    (run_pagination [[("color", QVal.str "red")]] (some 0) 2 2).2 =
      (List.range' 1 2).map
        (fun p => dictSet
          (dictSet (getDict [[("color", QVal.str "red")]] 0)
            "searchCriteria[pageSize]" (QVal.num 2))
          "searchCriteria[currentPage]" (QVal.num p)) ∧
    (run_pagination
        (run_pagination [[("color", QVal.str "red")]] (some 0) 2 2).1 (some 0) 5 1).2 =
      (List.range' 1 1).map
        (fun p => dictSet
          (dictSet (getDict [[("color", QVal.str "red")]] 0)
            "searchCriteria[pageSize]" (QVal.num 5))
          "searchCriteria[currentPage]" (QVal.num p)) :=
  C4_query_not_mutated [[("color", QVal.str "red")]] 0 2 5 2 1 (by decide)

example : get_paginated 2 (honestServer [10, 20, 30]) (-1) 10 = .ok ([10, 20, 30], 2) := rfl

example : get_paginated 1000 (honestServer [10, 20, 30]) 2 10 = .ok ([10, 20], 1) := rfl

example : get_paginated 2 (honestServer [10, 20, 30, 40, 50]) 4 10 = .ok ([10, 20, 30, 40], 2) := rfl

example : get_paginated 2 (honestServer ([] : List Nat)) (-1) 10 = .ok ([], 1) := rfl

example : get_paginated 2 (honestServer [10, 20, 30, 40]) (-1) 10 = .ok ([10, 20, 30, 40], 2) := rfl

end PyMagento
